import Mathlib

set_option maxHeartbeats 1000000
set_option maxRecDepth 10000

open List

/-!
Verification development for the affective-llm-pad-framework repository.

The Python sources are shallowly embedded: floats become exact rationals
(all constants in the program are decimal literals, exact in `ℚ`),
mutating methods become state-passing functions, `datetime` timestamps
become natural numbers, and Python's stable `sorted(..., key=..., reverse=True)`
becomes a stable descending insertion sort (`sortDesc`, extensionally equal
to any stable descending sort by the same key).
-/

/-- Clip a rational to the interval [0, 1]; models Python `max(0.0, min(1.0, x))`. -/
def clip01 (x : ℚ) : ℚ := max 0 (min 1 x)

/-- Clip a rational to the interval [-1, 1]; models Python `max(-1.0, min(1.0, x))`. -/
def clipPm (x : ℚ) : ℚ := max (-1) (min 1 x)

/-- PAD affective state, from `src/affectgpt/emotion.py` (`class PAD`). -/
structure PAD where
  pleasure : ℚ
  arousal : ℚ
  dominance : ℚ
deriving DecidableEq, Repr

/-- `PAD.clipped`: clip the three PAD values to [-1, +1]. -/
def PAD.clipped (p : PAD) : PAD :=
  ⟨clipPm p.pleasure, clipPm p.arousal, clipPm p.dominance⟩

/-- `PAD.zero`: the neutral (0,0,0) PAD state. -/
def PAD.zero : PAD := ⟨0, 0, 0⟩

/-- `PAD.scale`: scale all PAD dimensions by a factor (no clipping in the source). -/
def PAD.scale (p : PAD) (factor : ℚ) : PAD :=
  ⟨p.pleasure * factor, p.arousal * factor, p.dominance * factor⟩

/-- All three PAD components lie in [-1, 1]. -/
def PAD.inRange (p : PAD) : Prop :=
  -1 ≤ p.pleasure ∧ p.pleasure ≤ 1 ∧ -1 ≤ p.arousal ∧ p.arousal ≤ 1 ∧
    -1 ≤ p.dominance ∧ p.dominance ≤ 1

/-- Mood state from `emotion.py` (`class Mood`): decay factor, current PAD
state and the history of PAD snapshots (one entry per state assignment). -/
structure Mood where
  decay : ℚ
  state : PAD
  history : List PAD
deriving DecidableEq, Repr

/-- `Mood.__init__(decay, baseline)`: state starts at the baseline (or zero),
history starts as `[state]`. The supplied baseline is NOT clipped in the source. -/
def Mood.init (decay : ℚ) (baseline : Option PAD) : Mood :=
  let s := baseline.getD PAD.zero
  ⟨decay, s, [s]⟩

/-- `Mood.update(delta, blend)`: decay the current state, add the blended delta,
clip, append to history and return the new state (returned as the second
component; the first component is the updated Mood object). -/
def Mood.update (m : Mood) (delta : PAD) (blend : ℚ) : Mood × PAD :=
  let decayed := m.state.scale m.decay
  let s : PAD := (⟨decayed.pleasure + delta.pleasure * blend,
                   decayed.arousal + delta.arousal * blend,
                   decayed.dominance + delta.dominance * blend⟩ : PAD).clipped
  (⟨m.decay, s, m.history ++ [s]⟩, s)

/-- `Mood.current()`: return the current PAD mood state. -/
def Mood.current (m : Mood) : PAD := m.state

/-- `Mood.reset(baseline)`: reset state to zero or to the supplied baseline
(NOT clipped in the source) and reinitialize history. -/
def Mood.reset (m : Mood) (baseline : Option PAD) : Mood :=
  let s := baseline.getD PAD.zero
  ⟨m.decay, s, [s]⟩

/-- Neuromodulator state from `emotion.py` (`class NeuroChemistry`). -/
structure NeuroChemistry where
  dopamine : ℚ
  serotonin : ℚ
  noradrenaline : ℚ
deriving DecidableEq, Repr

/-- `NeuroChemistry.clipped`: clamp all values to [-1, +1]. -/
def NeuroChemistry.clipped (nc : NeuroChemistry) : NeuroChemistry :=
  ⟨clipPm nc.dopamine, clipPm nc.serotonin, clipPm nc.noradrenaline⟩

/-- `NeuroChemistry.to_pad()`: map neuromodulator levels to a PAD bias via the
fixed linear projection of the source, then clip. -/
def NeuroChemistry.to_pad (nc : NeuroChemistry) : PAD :=
  let d := nc.dopamine
  let s := nc.serotonin
  let n := nc.noradrenaline
  (⟨0.5 * d + 0.6 * s - 0.2 * n,
    0.4 * d - 0.2 * s + 0.7 * n,
    0.3 * d - 0.3 * s + 0.6 * n⟩ : PAD).clipped

/-- `NeuroChemistry.decayed(factor)`: multiply all three values by the factor. -/
def NeuroChemistry.decayed (nc : NeuroChemistry) (factor : ℚ) : NeuroChemistry :=
  ⟨nc.dopamine * factor, nc.serotonin * factor, nc.noradrenaline * factor⟩

/-- `NeuroChemistry.updated_from_pad_delta(delta, learning_rate)`: update the
three modulators from a PAD delta exactly as the source does, then clip. -/
def NeuroChemistry.updated_from_pad_delta (nc : NeuroChemistry) (delta : PAD)
    (learning_rate : ℚ) : NeuroChemistry :=
  let d1 := if 0 ≤ delta.pleasure then nc.dopamine + learning_rate * delta.pleasure
            else nc.dopamine
  let s1 := if 0 ≤ delta.pleasure then nc.serotonin + 0.5 * learning_rate * delta.pleasure
            else nc.serotonin
  let n1 := if 0 ≤ delta.pleasure then nc.noradrenaline
            else nc.noradrenaline + -0.4 * learning_rate * delta.pleasure
  let n2 := if 0 < delta.arousal then n1 + 0.6 * learning_rate * delta.arousal else n1
  let d2 := d1 + 0.1 * learning_rate * delta.dominance
  NeuroChemistry.clipped ⟨d2, s1, n2⟩

/-! Memory system, from `src/affectgpt/memory_system.py`. -/

/-- Character-list test whether the first list is an initial segment of the second. -/
def startsWithCh : List Char → List Char → Bool
  | [], _ => true
  | _ :: _, [] => false
  | p :: ps, c :: cs => p == c && startsWithCh ps cs

/-- Character-list substring test (Python `pat in s` on strings). -/
def containsSub (pat : List Char) : List Char → Bool
  | [] => startsWithCh pat []
  | c :: cs => startsWithCh pat (c :: cs) || containsSub pat cs

/-- Python `pat in s` for strings. -/
def py_in (pat s : String) : Bool := containsSub pat.data s.data

/-- Python `str.lower()` (ASCII case mapping, which is all the heuristics use);
defined structurally over the character list so it evaluates in the kernel. -/
def pyLower (s : String) : String := ⟨s.data.map Char.toLower⟩

/-- `_contains_any(text, keywords)`: lowercase the text and test whether any
keyword occurs in it as a substring. -/
def contains_any (text : String) (keywords : List String) : Bool :=
  keywords.any (fun k => py_in k (pyLower text))

/-- First-person markers used by `score_importance` ("self-related"). -/
def self_markers : List String := ["i ", "i\x27m", "im ", "my ", "me ", "mine "]

/-- Preference/identity markers used by `score_importance`. -/
def pref_markers : List String := ["i like", "i love", "i enjoy", "i hate", "i prefer"]

/-- Time/plan markers used by `score_importance`. -/
def plan_markers : List String := ["tomorrow", "next week", "in a year", "plan", "goal"]

/-- Negative-salience emotion labels used by `score_importance`. -/
def neg_labels : List String := ["sadness", "anxiety", "anger", "shame", "fear"]

/-- Positive-salience emotion labels used by `score_importance`. -/
def pos_labels : List String := ["joy", "gratitude", "pride"]

/-- `score_importance(user_text, label)`: additive keyword/label heuristic with
a crisis override, clipped to [0,1]. -/
def score_importance (user_text label : String) : ℚ :=
  let text := pyLower user_text
  let s0 : ℚ := 0.2
  let s1 := if contains_any text self_markers then s0 + 0.2 else s0
  let s2 := if contains_any text pref_markers then s1 + 0.2 else s1
  let s3 := if contains_any text plan_markers then s2 + 0.1 else s2
  let s4 := if label ∈ neg_labels then s3 + 0.2 else s3
  let s5 := if label ∈ pos_labels then s4 + 0.15 else s4
  let s6 := if label = "safety" then (0.95 : ℚ) else s5
  clip01 s6

/-- Character-list model of Python `str.strip()` (drop whitespace at both ends). -/
def stripChars (l : List Char) : List Char :=
  (((l.dropWhile Char.isWhitespace).reverse.dropWhile Char.isWhitespace)).reverse

/-- Python `str.strip()` on strings. -/
def pyStrip (s : String) : String := ⟨stripChars s.data⟩

/-- Python `str.split()` with no arguments: split on whitespace runs,
discarding empty fragments. -/
def pySplitWs (s : String) : List String :=
  (s.split Char.isWhitespace).filter (fun w => w ≠ "")

/-- `summarise_interaction(user_text, label)`: whitespace-normalise, truncate to
140 characters with an ellipsis, and phrase by label family. -/
def summarise_interaction (user_text label : String) : String :=
  let cleaned := String.intercalate " " (pySplitWs (pyStrip user_text))
  let cleaned := if 140 < cleaned.length then String.mk (cleaned.data.take 140) ++ "…" else cleaned
  if label = "safety" then
    "The user expressed a crisis/safety concern: \"" ++ cleaned ++ "\""
  else if label ∈ (["sadness", "anxiety", "fear", "anger"] : List String) then
    "The user felt " ++ label ++ " about: \"" ++ cleaned ++ "\""
  else if label ∈ (["joy", "gratitude", "pride"] : List String) then
    "The user shared a positive moment (" ++ label ++ "): \"" ++ cleaned ++ "\""
  else
    "User said: \"" ++ cleaned ++ "\""

/-- A memory record (`MemoryItem` dataclass); `datetime` timestamps become
natural numbers. -/
structure MemoryItem where
  kind : String
  text : String
  label : String
  importance : ℚ
  pad : PAD
  brain : NeuroChemistry
  timestamp : ℕ
deriving DecidableEq, Repr

/-- The comparison a stable descending sort by `key` uses: `a` may precede `b`
exactly when `key b ≤ key a`. -/
def keyDesc {α β : Type} [LinearOrder β] (key : α → β) : α → α → Prop :=
  fun a b => key b ≤ key a

instance keyDesc_decidable {α β : Type} [LinearOrder β] (key : α → β) :
    DecidableRel (keyDesc key) :=
  fun a b => inferInstanceAs (Decidable (key b ≤ key a))

instance keyDesc_isTotal {α β : Type} [LinearOrder β] (key : α → β) :
    IsTotal α (keyDesc key) :=
  ⟨fun a b => le_total (key b) (key a)⟩

instance keyDesc_isTrans {α β : Type} [LinearOrder β] (key : α → β) :
    IsTrans α (keyDesc key) :=
  ⟨fun _ _ _ h1 h2 => le_trans h2 h1⟩

/-- Stable descending sort by key; models Python's stable
`sorted(..., key=..., reverse=True)` (any two stable descending sorts by the
same key agree extensionally, and insertion sort is stable: equal-key
elements keep their original relative order). -/
def sortDesc {α β : Type} [LinearOrder β] (key : α → β) (l : List α) : List α :=
  l.insertionSort (keyDesc key)

/-- Python slice `l[-n:]`. Note that for `n = 0` Python returns the whole
list (`l[-0:] = l[0:]`), not the empty list. -/
def pySliceLast {α : Type} (n : ℕ) (l : List α) : List α :=
  if n = 0 then l else l.drop (l.length - n)

/-- The short-term record `update_memories` appends (full exchange text). -/
def mkStmItem (user_text bot_text label : String) (pad : PAD) (brain : NeuroChemistry)
    (now : ℕ) : MemoryItem :=
  ⟨"stm", "User: " ++ user_text ++ "\nBot: " ++ bot_text, label,
    score_importance user_text label, pad, brain, now⟩

/-- The long-term record `update_memories` appends when the turn is important
enough (summary text). -/
def mkLtmItem (user_text label : String) (pad : PAD) (brain : NeuroChemistry)
    (now : ℕ) : MemoryItem :=
  ⟨"ltm", summarise_interaction user_text label, label,
    score_importance user_text label, pad, brain, now⟩

/-- `update_memories(...)`: append the exchange to short-term memory with FIFO
eviction past `max_stm`; if the importance reaches the threshold, append a
summary record to long-term memory, re-sort long-term by importance
descending (stable) and truncate to `max_ltm`. -/
def update_memories (stm ltm : List MemoryItem) (user_text bot_text label : String)
    (pad : PAD) (brain : NeuroChemistry) (now : ℕ)
    (max_stm max_ltm : ℕ) (ltm_threshold : ℚ) : List MemoryItem × List MemoryItem :=
  let importance := score_importance user_text label
  let new_stm0 := stm ++ [mkStmItem user_text bot_text label pad brain now]
  let new_stm := if max_stm < new_stm0.length then pySliceLast max_stm new_stm0 else new_stm0
  let new_ltm := if ltm_threshold ≤ importance then
      (sortDesc (fun m : MemoryItem => m.importance)
        (ltm ++ [mkLtmItem user_text label pad brain now])).take max_ltm
    else ltm
  (new_stm, new_ltm)

/-- Python `"\n".join(parts)`. -/
def joinNl : List String → String
  | [] => ""
  | [s] => s
  | s :: t :: rest => s ++ "\n" ++ joinNl (t :: rest)

/-- The `parts` list `build_memory_context` assembles before joining:
long-term block (header plus most-recent-first capped summaries), then
short-term block (blank line, header, last `max_stm` snippets with
newlines flattened to " / "). -/
def memory_context_parts (stm ltm : List MemoryItem) (max_stm max_ltm : ℕ) : List String :=
  let parts0 : List String := []
  let parts1 := if ltm = [] then parts0 else
    parts0 ++ "Important things the user has shared before:" ::
      ((sortDesc (fun m : MemoryItem => m.timestamp) ltm).take max_ltm).map
        (fun m => "- " ++ m.text)
  let parts2 := if stm = [] then parts1 else
    parts1 ++ "" :: "Recent conversation snippets:" ::
      (pySliceLast max_stm stm).map (fun m => "- " ++ m.text.replace "\n" " / ")
  parts2

/-- `build_memory_context(stm, ltm, max_stm, max_ltm)`: join the parts with
newlines and strip. -/
def build_memory_context (stm ltm : List MemoryItem) (max_stm max_ltm : ℕ) : String :=
  pyStrip (joinNl (memory_context_parts stm ltm max_stm max_ltm))

/-! Attachment update and safety check, from `ui/app.py` and `src/affectgpt/safety.py`. -/

/-- Classifier signal map (the fields of the appraiser's `signals` dict that
the attachment update and the turn handler read). -/
structure Signals where
  compound : ℚ
  target : String
deriving DecidableEq, Repr

/-- `update_attachment(attachment, label, target, signals)` from `ui/app.py`:
sum the four rule deltas and clip the new value to [0,1]. -/
def update_attachment (attachment : ℚ) (label target : String) (signals : Signals) : ℚ :=
  let comp := signals.compound
  let d0 : ℚ := 0
  let d1 := if (label = "gratitude" ∨ label = "joy") ∧ target ≠ "bot" ∧ 0.2 < comp
            then d0 + 0.04 else d0
  let d2 := if (label = "sadness" ∨ label = "fear") ∧ target = "self" then d1 + 0.02 else d1
  let d3 := if label = "anger" ∧ target = "bot" then d2 - 0.05 else d2
  let d4 := if label = "safety" then d3 + 0.01 else d3
  clip01 (attachment + d4)

/-- Python regex `\w` word-character test (ASCII letters, digits, underscore). -/
def isWordChar (c : Char) : Bool := c.isAlphanum || c == '_'

/-- Match a literal character sequence at the head of a list, returning the rest. -/
def matchLit : List Char → List Char → Option (List Char)
  | [], s => some s
  | _ :: _, [] => none
  | p :: ps, c :: cs => if p == c then matchLit ps cs else none

/-- The alternatives of the `CRISIS` regex in `src/affectgpt/safety.py`, each as
literal segments separated by `\s*`. -/
def crisis_alternatives : List (List String) :=
  [["self", "harm"], ["suicide"], ["kill myself"], ["end it all"], ["overdose"]]

/-- Match one alternative (literal segments separated by `\s*`) at the head of
a list, returning the rest after the match. -/
def matchSegs : List String → List Char → Option (List Char)
  | [], s => some s
  | [seg], s => matchLit seg.data s
  | seg :: seg2 :: rest, s =>
    match matchLit seg.data s with
    | some r => matchSegs (seg2 :: rest) (r.dropWhile Char.isWhitespace)
    | none => none

/-- Word boundary after a match: end of input or a non-word character
(every alternative ends in a word character). -/
def boundaryOk : List Char → Bool
  | [] => true
  | c :: _ => !(isWordChar c)

/-- Does some crisis alternative match here, ending at a word boundary? -/
def matchHere (s : List Char) : Bool :=
  crisis_alternatives.any (fun alt =>
    match matchSegs alt s with
    | some rest => boundaryOk rest
    | none => false)

/-- Scan for a crisis match; `atB` records whether the current position sits at
a word boundary (start of text or preceded by a non-word character; every
alternative starts with a word character). -/
def crisisScan : Bool → List Char → Bool
  | _, [] => false
  | atB, c :: cs => (atB && matchHere (c :: cs)) || crisisScan (!(isWordChar c)) cs

/-- `CRISIS.search(text)` with `re.I`: scan the lowercased text. -/
def crisisSearch (text : String) : Bool := crisisScan true (pyLower text).data

/-- The fixed supportive message `safety.check` returns on a crisis match. -/
def crisisMessage : String :=
  "I am really sorry you are going through this. You are not alone. If you are in immediate danger, please call your local emergency number. In the UK you can contact Samaritans 24/7 at 116 123 or text SHOUT to 85258."

/-- `check(text)` from `src/affectgpt/safety.py`. -/
def check (text : String) : Option String :=
  if crisisSearch text then some crisisMessage else none

/-- The per-session mutable state the turn handler in `ui/app.py` owns. -/
structure TurnState where
  mood : Mood
  brain : NeuroChemistry
  brain_history : List NeuroChemistry
  stm : List MemoryItem
  ltm : List MemoryItem
  attachment : ℚ
deriving DecidableEq, Repr

/-- The per-turn neurochemistry step of `ui/app.py`: drift toward the persona
baseline with strength 0.1, decay by 0.9, then update from the PAD delta
with the default learning rate 0.4. -/
def brain_step (b nb : NeuroChemistry) (delta : PAD) : NeuroChemistry :=
  let drifted : NeuroChemistry :=
    ⟨b.dopamine * (1 - 0.1) + nb.dopamine * 0.1,
     b.serotonin * (1 - 0.1) + nb.serotonin * 0.1,
     b.noradrenaline * (1 - 0.1) + nb.noradrenaline * 0.1⟩
  (drifted.decayed 0.9).updated_from_pad_delta delta 0.4

/-- The submitted-turn branch of `ui/app.py`, as a function of the session
state, the user text, the classifier's output `(label, delta, signals)`
(the classifier is an external collaborator), the persona's neuro baseline
`nb`, the `neuro_weight`/`pad_bias`/`persona_weight` controls, and the
generation backend `gen` (external; it receives the memory-augmented user
text and the biased PAD). Style derivation, the self-reflection text and
the chat log are omitted: they feed only the presentation layer and the
generation prompt, not the state the claims are about. Returns the new
state and the reply. -/
def run_turn (st : TurnState) (user_text label : String) (delta : PAD) (signals : Signals)
    (nb : NeuroChemistry) (neuro_weight : ℚ) (pad_bias : PAD) (persona_weight : ℚ)
    (gen : String → PAD → String) (now : ℕ) : TurnState × String :=
  let crisis := check user_text
  let target := signals.target
  let attachment1 := update_attachment st.attachment label target signals
  let moodRes := st.mood.update delta 0.25
  let new_pad_true := moodRes.2
  let brain1 := brain_step st.brain nb delta
  let brain_pad_turn := brain1.to_pad
  let mixed : PAD :=
    (⟨(1 - neuro_weight) * new_pad_true.pleasure + neuro_weight * brain_pad_turn.pleasure,
      (1 - neuro_weight) * new_pad_true.arousal + neuro_weight * brain_pad_turn.arousal,
      (1 - neuro_weight) * new_pad_true.dominance + neuro_weight * brain_pad_turn.dominance⟩ :
      PAD).clipped
  let biased : PAD :=
    (⟨mixed.pleasure + pad_bias.pleasure * persona_weight,
      mixed.arousal + pad_bias.arousal * persona_weight,
      mixed.dominance + pad_bias.dominance * persona_weight⟩ : PAD).clipped
  let memory_context := build_memory_context st.stm st.ltm 4 6
  let augmented := if memory_context = "" then user_text
    else memory_context ++ "\n\nCurrent message from the user:\n" ++ user_text
  let bot := match crisis with
    | some c => c
    | none => gen augmented biased
  let label_for_log := match crisis with
    | some _ => "safety"
    | none => label
  let mems := update_memories st.stm st.ltm user_text bot label_for_log
    new_pad_true brain1 now 20 12 0.6
  (⟨moodRes.1, brain1, st.brain_history ++ [brain1], mems.1, mems.2, attachment1⟩, bot)

/-! Lemmas about the stable descending sort (Python's `sorted` with
`reverse=True` is stable; `List.insertionSort` with `keyDesc` realises it). -/

theorem sortDesc_perm {α β : Type} [LinearOrder β] (key : α → β) (l : List α) :
    sortDesc key l ~ l :=
  List.perm_insertionSort (keyDesc key) l

theorem mem_sortDesc {α β : Type} [LinearOrder β] {key : α → β} {l : List α} {x : α} :
    x ∈ sortDesc key l ↔ x ∈ l :=
  (sortDesc_perm key l).mem_iff

theorem length_sortDesc {α β : Type} [LinearOrder β] (key : α → β) (l : List α) :
    (sortDesc key l).length = l.length :=
  (sortDesc_perm key l).length_eq

theorem pairwise_sortDesc {α β : Type} [LinearOrder β] (key : α → β) (l : List α) :
    (sortDesc key l).Pairwise (fun a b => key b ≤ key a) :=
  List.sorted_insertionSort (keyDesc key) l

theorem pair_sublist_sortDesc {α β : Type} [LinearOrder β] (key : α → β) {a b : α}
    {l : List α} (hab : key b ≤ key a) (h : [a, b] <+ l) :
    [a, b] <+ sortDesc key l :=
  List.pair_sublist_insertionSort hab h

theorem orderedInsert_append_last {α β : Type} [LinearOrder β] (key : α → β) (a x : α)
    (h : key x ≤ key a) (s : List α) :
    List.orderedInsert (keyDesc key) a (s ++ [x]) =
      List.orderedInsert (keyDesc key) a s ++ [x] := by
  induction s with
  | nil =>
    show List.orderedInsert (keyDesc key) a [x] = [a] ++ [x]
    rw [List.orderedInsert, if_pos (show keyDesc key a x from h)]
    rfl
  | cons y s ih =>
    show (if keyDesc key a y then a :: y :: (s ++ [x])
          else y :: List.orderedInsert (keyDesc key) a (s ++ [x])) =
        (if keyDesc key a y then a :: y :: s
          else y :: List.orderedInsert (keyDesc key) a s) ++ [x]
    by_cases hy : keyDesc key a y
    · rw [if_pos hy, if_pos hy]
      rfl
    · rw [if_neg hy, if_neg hy, ih]
      rfl

theorem orderedInsert_bottom {α β : Type} [LinearOrder β] (key : α → β) (a : α)
    (s : List α) (h : ∀ y ∈ s, key a < key y) :
    List.orderedInsert (keyDesc key) a s = s ++ [a] := by
  induction s with
  | nil => rfl
  | cons y s ih =>
    have hy : ¬ keyDesc key a y := not_le.mpr (h y (List.mem_cons_self y s))
    show (if keyDesc key a y then a :: y :: s
          else y :: List.orderedInsert (keyDesc key) a s) = (y :: s) ++ [a]
    rw [if_neg hy, ih (fun z hz => h z (List.mem_cons_of_mem y hz))]
    rfl

theorem sortDesc_append_last {α β : Type} [LinearOrder β] (key : α → β) (x : α)
    (l : List α) (h : ∀ y ∈ l, key x ≤ key y) :
    sortDesc key (l ++ [x]) = sortDesc key l ++ [x] := by
  induction l with
  | nil => rfl
  | cons a l ih =>
    show List.orderedInsert (keyDesc key) a (sortDesc key (l ++ [x])) =
      List.orderedInsert (keyDesc key) a (sortDesc key l) ++ [x]
    rw [ih (fun y hy => h y (List.mem_cons_of_mem a hy)),
      orderedInsert_append_last key a x (h a (List.mem_cons_self a l))]

theorem sortDesc_last_min {α β : Type} [LinearOrder β] (key : α → β) (r : α)
    (l₁ : List α) : ∀ l₂ : List α, (∀ y ∈ l₁, key r ≤ key y) → (∀ y ∈ l₂, key r < key y) →
      sortDesc key (l₁ ++ r :: l₂) = sortDesc key (l₁ ++ l₂) ++ [r] := by
  induction l₁ with
  | nil =>
    intro l₂ _ h₂
    show List.orderedInsert (keyDesc key) r (sortDesc key l₂) = sortDesc key l₂ ++ [r]
    exact orderedInsert_bottom key r _ (fun y hy => h₂ y (mem_sortDesc.mp hy))
  | cons a l₁ ih =>
    intro l₂ h₁ h₂
    show List.orderedInsert (keyDesc key) a (sortDesc key (l₁ ++ r :: l₂)) =
      List.orderedInsert (keyDesc key) a (sortDesc key (l₁ ++ l₂)) ++ [r]
    rw [ih l₂ (fun y hy => h₁ y (List.mem_cons_of_mem a hy)) h₂,
      orderedInsert_append_last key a r (h₁ a (List.mem_cons_self a l₁))]

theorem exists_last_min {α β : Type} [LinearOrder β] (key : α → β) :
    ∀ {l : List α}, l ≠ [] →
      ∃ l₁ r l₂, l = l₁ ++ r :: l₂ ∧ (∀ y ∈ l, key r ≤ key y) ∧
        (∀ y ∈ l₂, key r < key y) := by
  intro l
  induction l with
  | nil => intro h; exact absurd rfl h
  | cons a l ih =>
    intro _
    by_cases hl : l = []
    · subst hl
      exact ⟨[], a, [], rfl, by simp, by simp⟩
    · obtain ⟨l₁, r, l₂, he, hmin, hpost⟩ := ih hl
      by_cases har : key a < key r
      · refine ⟨[], a, l, rfl, ?_, ?_⟩
        · intro y hy
          rcases List.mem_cons.mp hy with rfl | hy
          · exact le_refl _
          · exact le_of_lt (lt_of_lt_of_le har (hmin y hy))
        · intro y hy
          exact lt_of_lt_of_le har (hmin y hy)
      · refine ⟨a :: l₁, r, l₂, by rw [he, List.cons_append], ?_, hpost⟩
        intro y hy
        rcases List.mem_cons.mp hy with rfl | hy
        · exact not_lt.mp har
        · exact hmin y hy

/-! Claim C3: Mood.update behaviour. -/

/-- C3: for every current mood state, delta and blend, `Mood.update` sets the
state to `clip(state.scale(decay) + delta.scale(blend))` componentwise,
appends exactly that new state to the history, and returns it. -/
theorem mood_update_spec (m : Mood) (delta : PAD) (blend : ℚ) :
    (m.update delta blend).2 =
      (⟨(m.state.scale m.decay).pleasure + (delta.scale blend).pleasure,
        (m.state.scale m.decay).arousal + (delta.scale blend).arousal,
        (m.state.scale m.decay).dominance + (delta.scale blend).dominance⟩ : PAD).clipped ∧
    (m.update delta blend).1.state = (m.update delta blend).2 ∧
    (m.update delta blend).1.history = m.history ++ [(m.update delta blend).2] ∧
    (m.update delta blend).1.decay = m.decay := by
  exact ⟨rfl, rfl, rfl, rfl⟩

/-! Claim C4: NeuroChemistry update and projection. -/

/-- C4: `updated_from_pad_delta` adds `rate*pleasure` to dopamine and
`0.5*rate*pleasure` to serotonin when the pleasure delta is nonnegative,
otherwise adds `0.4*rate*|pleasure|` to noradrenaline; adds
`0.6*rate*arousal` to noradrenaline when the arousal delta is positive;
always adds `0.1*rate*dominance` to dopamine; and clips; `to_pad` is the
fixed clipped linear projection of the source. -/
theorem neuro_update_spec (nc : NeuroChemistry) (delta : PAD) (rate : ℚ) :
    nc.updated_from_pad_delta delta rate =
      NeuroChemistry.clipped
        ⟨nc.dopamine + (if 0 ≤ delta.pleasure then rate * delta.pleasure else 0)
            + 0.1 * rate * delta.dominance,
         nc.serotonin + (if 0 ≤ delta.pleasure then 0.5 * rate * delta.pleasure else 0),
         nc.noradrenaline + (if 0 ≤ delta.pleasure then 0 else 0.4 * rate * |delta.pleasure|)
            + (if 0 < delta.arousal then 0.6 * rate * delta.arousal else 0)⟩ ∧
    nc.to_pad =
      (⟨0.5 * nc.dopamine + 0.6 * nc.serotonin - 0.2 * nc.noradrenaline,
        0.4 * nc.dopamine - 0.2 * nc.serotonin + 0.7 * nc.noradrenaline,
        0.3 * nc.dopamine - 0.3 * nc.serotonin + 0.6 * nc.noradrenaline⟩ : PAD).clipped := by
  constructor
  · simp only [NeuroChemistry.updated_from_pad_delta]
    by_cases hp : 0 ≤ delta.pleasure <;> by_cases ha : 0 < delta.arousal
    · simp only [if_pos hp, if_pos ha]
      exact congrArg NeuroChemistry.clipped
        ((NeuroChemistry.mk.injEq _ _ _ _ _ _).mpr ⟨by ring, by ring, by ring⟩)
    · simp only [if_pos hp, if_neg ha]
      exact congrArg NeuroChemistry.clipped
        ((NeuroChemistry.mk.injEq _ _ _ _ _ _).mpr ⟨by ring, by ring, by ring⟩)
    · simp only [if_neg hp, if_pos ha]
      refine congrArg NeuroChemistry.clipped
        ((NeuroChemistry.mk.injEq _ _ _ _ _ _).mpr ⟨by ring, by ring, ?_⟩)
      rw [abs_of_neg (not_le.mp hp)]; ring
    · simp only [if_neg hp, if_neg ha]
      refine congrArg NeuroChemistry.clipped
        ((NeuroChemistry.mk.injEq _ _ _ _ _ _).mpr ⟨by ring, by ring, ?_⟩)
      rw [abs_of_neg (not_le.mp hp)]; ring
  · rfl

/-! Claim C6: score_importance. -/

/-- Lower bound of the [0,1] clip. -/
theorem clip01_nonneg (x : ℚ) : 0 ≤ clip01 x := le_max_left _ _

/-- Upper bound of the [0,1] clip. -/
theorem clip01_le_one (x : ℚ) : clip01 x ≤ 1 :=
  max_le (by norm_num) (min_le_left _ _)

/-- C6: every importance score lies in [0,1]; a "safety" label forces exactly
0.95 regardless of the text; otherwise the score is the base 0.2 plus 0.2
for first-person markers, plus 0.2 for preference/identity phrasing, plus
0.1 for planning phrasing, plus 0.2 for a negative-salience label and 0.15
for a positive-salience label. -/
theorem score_importance_spec (text label : String) :
    (0 ≤ score_importance text label ∧ score_importance text label ≤ 1) ∧
    (label = "safety" → score_importance text label = 0.95) ∧
    (label ≠ "safety" → score_importance text label =
      0.2 + (if contains_any (pyLower text) self_markers then 0.2 else 0)
          + (if contains_any (pyLower text) pref_markers then 0.2 else 0)
          + (if contains_any (pyLower text) plan_markers then 0.1 else 0)
          + (if label ∈ neg_labels then 0.2 else 0)
          + (if label ∈ pos_labels then 0.15 else 0)) := by
  refine ⟨⟨clip01_nonneg _, clip01_le_one _⟩, ?_, ?_⟩
  · intro h
    subst h
    simp only [score_importance]
    norm_num [clip01, min_def, max_def]
  · intro h
    simp only [score_importance]
    rw [if_neg h]
    split_ifs with h1 h2 h3 h4 h5
    all_goals first
      | (norm_num [clip01, min_def, max_def]; done)
      | (exfalso
         have hn : label ∈ neg_labels := by assumption
         have hp : label ∈ pos_labels := by assumption
         simp only [neg_labels, List.mem_cons, List.not_mem_nil, or_false] at hn
         simp only [pos_labels, List.mem_cons, List.not_mem_nil, or_false] at hp
         rcases hn with rfl | rfl | rfl | rfl | rfl <;>
           rcases hp with hp | hp | hp <;> exact absurd hp (by decide))

/-- Witness for C6 at a concrete input. -/
theorem score_importance_spec_witness : score_importance "hello" "safety" = 0.95 :=
  (score_importance_spec "hello" "safety").2.1 rfl

/-! Claim C8: update_attachment. -/

/-- C8: `update_attachment` returns the clip to [0,1] of the prior value plus
the sum of the four rule deltas; in particular an anger-at-"bot" turn
changes the value by exactly -0.05 before clipping. -/
theorem update_attachment_spec (att : ℚ) (label target : String) (signals : Signals) :
    update_attachment att label target signals =
      clip01 (att +
        ((if (label = "gratitude" ∨ label = "joy") ∧ target ≠ "bot" ∧ 0.2 < signals.compound
            then 0.04 else 0)
          + (if (label = "sadness" ∨ label = "fear") ∧ target = "self" then 0.02 else 0)
          + (if label = "anger" ∧ target = "bot" then -0.05 else 0)
          + (if label = "safety" then 0.01 else 0))) ∧
    (label = "anger" → target = "bot" →
      update_attachment att label target signals = clip01 (att - 0.05)) := by
  have main : update_attachment att label target signals =
      clip01 (att +
        ((if (label = "gratitude" ∨ label = "joy") ∧ target ≠ "bot" ∧ 0.2 < signals.compound
            then 0.04 else 0)
          + (if (label = "sadness" ∨ label = "fear") ∧ target = "self" then 0.02 else 0)
          + (if label = "anger" ∧ target = "bot" then -0.05 else 0)
          + (if label = "safety" then 0.01 else 0))) := by
    simp only [update_attachment]
    split_ifs <;> (congr 1; ring)
  refine ⟨main, ?_⟩
  intro h1 h2
  subst h1
  subst h2
  rw [main]
  rw [if_neg (by rintro ⟨-, hb, -⟩; exact hb rfl)]
  rw [if_neg (by rintro ⟨hc, -⟩; rcases hc with hc | hc <;> exact absurd hc (by decide))]
  rw [if_pos ⟨rfl, rfl⟩]
  rw [if_neg (by decide : ¬("anger" : String) = "safety")]
  congr 1
  ring

/-- Witness for C8 at a concrete input. -/
theorem update_attachment_spec_witness :
    update_attachment 0.5 "anger" "bot" ⟨0, "bot"⟩ = clip01 (0.5 - 0.05) :=
  (update_attachment_spec 0.5 "anger" "bot" ⟨0, "bot"⟩).2 rfl rfl

/-! Claim C10: below-threshold turns leave long-term memory untouched. -/

/-- C10: when the computed importance of the turn is strictly below the
threshold, `update_memories` returns the input long-term list unchanged
(same records, same order). -/
theorem ltm_unchanged_below_threshold (stm ltm : List MemoryItem)
    (user_text bot_text label : String) (pad : PAD) (brain : NeuroChemistry) (now : ℕ)
    (max_stm max_ltm : ℕ) (ltm_threshold : ℚ)
    (h : score_importance user_text label < ltm_threshold) :
    (update_memories stm ltm user_text bot_text label pad brain now
      max_stm max_ltm ltm_threshold).2 = ltm := by
  simp [update_memories, not_le.mpr h]

/-- Strict upper bound for the [0,1] clip when the argument is below a
positive bound. -/
theorem clip01_lt_of_lt {x c : ℚ} (hx : x < c) (hc : 0 < c) : clip01 x < c :=
  max_lt hc (lt_of_le_of_lt (min_le_right _ _) hx)

/-- Witness for C10 at a concrete input. -/
theorem ltm_unchanged_below_threshold_witness :
    (update_memories [] [] "zzz" "ok" "neutral" PAD.zero ⟨0, 0, 0⟩ 0 20 12 0.6).2 = [] := by
  apply ltm_unchanged_below_threshold
  apply clip01_lt_of_lt
  · norm_num [show ("neutral" : String) ≠ "safety" from by decide,
      show ("neutral" : String) ∉ neg_labels from by decide,
      show ("neutral" : String) ∉ pos_labels from by decide,
      show contains_any (pyLower "zzz") self_markers = false from by decide,
      show contains_any (pyLower "zzz") pref_markers = false from by decide,
      show contains_any (pyLower "zzz") plan_markers = false from by decide]
  · norm_num


/-! Claim C1: long-term eviction at capacity. -/

/-- C1: with the long-term store at its cap of 12 (all records at or above the
threshold) and an eligible new record `x`, `update_memories` evicts an
existing record exactly when some existing record has importance strictly
below `x`'s: if `x`'s importance is at most the minimum, the returned store
is a permutation of the old one (the new record itself is the one dropped);
if `x`'s importance strictly exceeds the minimum, the record dropped is the
last-inserted record of minimal importance, and the result is the stable
descending re-sort of the retained records, so equal-importance records
keep their original insertion order (third conjunct). -/
theorem ltm_eviction_spec (stm ltm : List MemoryItem)
    (user_text bot_text label : String) (pad : PAD) (brain : NeuroChemistry) (now : ℕ)
    (x : MemoryItem) (hx : x = mkLtmItem user_text label pad brain now)
    (hlen : ltm.length = 12)
    (_hall : ∀ r ∈ ltm, (0.6 : ℚ) ≤ r.importance)
    (helig : (0.6 : ℚ) ≤ x.importance) :
    ((∀ r ∈ ltm, x.importance ≤ r.importance) →
      (update_memories stm ltm user_text bot_text label pad brain now 20 12 0.6).2 =
        sortDesc (fun m : MemoryItem => m.importance) ltm ∧
      (update_memories stm ltm user_text bot_text label pad brain now 20 12 0.6).2 ~ ltm) ∧
    ((∃ r ∈ ltm, r.importance < x.importance) →
      ∃ l₁ r l₂, ltm = l₁ ++ r :: l₂ ∧
        (∀ y ∈ ltm, r.importance ≤ y.importance) ∧
        (∀ y ∈ l₂, r.importance < y.importance) ∧
        (update_memories stm ltm user_text bot_text label pad brain now 20 12 0.6).2 =
          sortDesc (fun m : MemoryItem => m.importance) (l₁ ++ l₂ ++ [x]) ∧
        (update_memories stm ltm user_text bot_text label pad brain now 20 12 0.6).2 ~
          x :: (l₁ ++ l₂)) ∧
    (∀ (l : List MemoryItem) (a b : MemoryItem), b.importance ≤ a.importance →
      [a, b] <+ l → [a, b] <+ sortDesc (fun m : MemoryItem => m.importance) l) := by
  subst hx
  have helig' : (0.6 : ℚ) ≤ score_importance user_text label := helig
  have hres : (update_memories stm ltm user_text bot_text label pad brain now 20 12 0.6).2 =
      (sortDesc (fun m : MemoryItem => m.importance)
        (ltm ++ [mkLtmItem user_text label pad brain now])).take 12 := by
    simp only [update_memories]
    rw [if_pos helig']
  refine ⟨?_, ?_, ?_⟩
  · intro hmin
    have h1 := sortDesc_append_last (fun m : MemoryItem => m.importance)
      (mkLtmItem user_text label pad brain now) ltm hmin
    have hlen' : (sortDesc (fun m : MemoryItem => m.importance) ltm).length = 12 := by
      rw [length_sortDesc, hlen]
    rw [hres, h1, List.take_left' hlen']
    exact ⟨rfl, sortDesc_perm _ ltm⟩
  · rintro ⟨r', hr'mem, hr'lt⟩
    have hne : ltm ≠ [] := by
      intro h
      rw [h] at hlen
      simp at hlen
    obtain ⟨l₁, r, l₂, he, hmin, hpost⟩ :=
      exists_last_min (fun m : MemoryItem => m.importance) hne
    have hrx : r.importance < (mkLtmItem user_text label pad brain now).importance :=
      lt_of_le_of_lt (hmin r' hr'mem) hr'lt
    have hsplit : ltm ++ [mkLtmItem user_text label pad brain now] =
        l₁ ++ r :: (l₂ ++ [mkLtmItem user_text label pad brain now]) := by
      rw [he, List.append_assoc, List.cons_append]
    have hlast := sortDesc_last_min (fun m : MemoryItem => m.importance) r l₁
      (l₂ ++ [mkLtmItem user_text label pad brain now])
      (fun y hy => hmin y (by rw [he]; exact List.mem_append_left _ hy))
      (fun y hy => by
        rcases List.mem_append.mp hy with hy | hy
        · exact hpost y hy
        · rw [List.mem_singleton.mp hy]
          exact hrx)
    have hlen2 : (sortDesc (fun m : MemoryItem => m.importance)
        (l₁ ++ (l₂ ++ [mkLtmItem user_text label pad brain now]))).length = 12 := by
      rw [he] at hlen
      simp only [List.length_append, List.length_cons, List.length_singleton] at hlen ⊢
      rw [length_sortDesc]
      simp only [List.length_append, List.length_singleton]
      omega
    have hr2 : (update_memories stm ltm user_text bot_text label pad brain now 20 12 0.6).2 =
        sortDesc (fun m : MemoryItem => m.importance)
          (l₁ ++ l₂ ++ [mkLtmItem user_text label pad brain now]) := by
      rw [hres, hsplit, hlast, List.take_left' hlen2, List.append_assoc]
    refine ⟨l₁, r, l₂, he, hmin, hpost, hr2, ?_⟩
    rw [hr2]
    exact (sortDesc_perm _ _).trans (List.perm_append_singleton _ _)
  · intro l a b hab hsub
    exact pair_sublist_sortDesc _ hab hsub

/-- Witness for C1 at a concrete store of 12 records: the new record scores
0.9, every stored record scores 0.95, so nothing is evicted and the store
is returned as a permutation of itself. -/
theorem ltm_eviction_spec_witness :
    (update_memories [] (List.replicate 12 (MemoryItem.mk "ltm" "t" "joy" 0.95 PAD.zero ⟨0, 0, 0⟩ 0))
      "i like plan" "ok" "sadness" PAD.zero ⟨0, 0, 0⟩ 1 20 12 0.6).2 ~
    List.replicate 12 (MemoryItem.mk "ltm" "t" "joy" 0.95 PAD.zero ⟨0, 0, 0⟩ 0) := by
  have hscore : score_importance "i like plan" "sadness" = 0.9 := by
    norm_num [score_importance, clip01, min_def, max_def,
      show contains_any (pyLower "i like plan") self_markers = true from by decide,
      show contains_any (pyLower "i like plan") pref_markers = true from by decide,
      show contains_any (pyLower "i like plan") plan_markers = true from by decide,
      show ("sadness" : String) ∈ neg_labels from by decide,
      show ("sadness" : String) ∉ pos_labels from by decide,
      show ("sadness" : String) ≠ "safety" from by decide]
  have h := ltm_eviction_spec []
    (List.replicate 12 (MemoryItem.mk "ltm" "t" "joy" 0.95 PAD.zero ⟨0, 0, 0⟩ 0))
    "i like plan" "ok" "sadness" PAD.zero ⟨0, 0, 0⟩ 1
    (mkLtmItem "i like plan" "sadness" PAD.zero ⟨0, 0, 0⟩ 1) rfl
    (by simp)
    (by
      intro r hr
      rw [List.eq_of_mem_replicate hr]
      norm_num)
    (by
      show (0.6 : ℚ) ≤ score_importance "i like plan" "sadness"
      rw [hscore]
      norm_num)
  refine (h.1 ?_).2
  intro r hr
  rw [List.eq_of_mem_replicate hr]
  show score_importance "i like plan" "sadness" ≤ (0.95 : ℚ)
  rw [hscore]
  norm_num

/-! Claim C2: memory caps and threshold invariant. -/

/-- C2: for inputs within the (positive) caps whose long-term records all meet
the threshold, `update_memories` returns a short-term list of at most
`max_stm` records and a long-term list of at most `max_ltm` records, all of
importance at or above the threshold. -/
theorem memory_caps_spec (stm ltm : List MemoryItem)
    (user_text bot_text label : String) (pad : PAD) (brain : NeuroChemistry) (now : ℕ)
    (max_stm max_ltm : ℕ) (thr : ℚ)
    (h0 : 0 < max_stm)
    (h1 : stm.length ≤ max_stm)
    (h2 : ltm.length ≤ max_ltm)
    (h3 : ∀ r ∈ ltm, thr ≤ r.importance) :
    (update_memories stm ltm user_text bot_text label pad brain now
        max_stm max_ltm thr).1.length ≤ max_stm ∧
    (update_memories stm ltm user_text bot_text label pad brain now
        max_stm max_ltm thr).2.length ≤ max_ltm ∧
    ∀ r ∈ (update_memories stm ltm user_text bot_text label pad brain now
        max_stm max_ltm thr).2, thr ≤ r.importance := by
  refine ⟨?_, ?_, ?_⟩
  · simp only [update_memories]
    split_ifs with h
    · rw [pySliceLast, if_neg (Nat.pos_iff_ne_zero.mp h0)]
      rw [List.length_drop]
      omega
    · exact not_lt.mp h
  · simp only [update_memories]
    split_ifs with h
    · exact le_trans (List.length_take_le _ _) (le_refl _)
    · exact h2
  · simp only [update_memories]
    split_ifs with h
    · intro r hr
      rcases List.mem_append.mp (mem_sortDesc.mp (List.mem_of_mem_take hr)) with hr' | hr'
      · exact h3 r hr'
      · rw [List.mem_singleton.mp hr']
        exact h
    · exact h3

/-- Witness for C2 at a concrete input. -/
theorem memory_caps_spec_witness :
    (update_memories [] [] "a" "b" "neutral" PAD.zero ⟨0, 0, 0⟩ 0 20 12 0.6).1.length ≤ 20 :=
  (memory_caps_spec [] [] "a" "b" "neutral" PAD.zero ⟨0, 0, 0⟩ 0 20 12 0.6
    (by norm_num) (by simp) (by simp) (by simp)).1

/-! Claim C9: build_memory_context layout. -/

/-- When the character-list strip of a string is empty, every character of the
string was whitespace. -/
theorem all_ws_of_stripChars_eq_nil {l : List Char} (h : stripChars l = []) :
    ∀ c ∈ l, c.isWhitespace := by
  unfold stripChars at h
  rw [List.reverse_eq_nil_iff, List.dropWhile_eq_nil_iff] at h
  intro c hc
  have hc' : c ∈ l.takeWhile Char.isWhitespace ++ l.dropWhile Char.isWhitespace := by
    rw [List.takeWhile_append_dropWhile]
    exact hc
  rcases List.mem_append.mp hc' with h1 | h1
  · exact List.mem_takeWhile_imp h1
  · exact h c (List.mem_reverse.mpr h1)

/-- A string containing a non-whitespace character does not strip to empty. -/
theorem pyStrip_ne_empty {s : String} {c : Char} (hc : c ∈ s.data)
    (hw : c.isWhitespace = false) : pyStrip s ≠ "" := by
  intro h
  have hdata : stripChars s.data = [] := congrArg String.data h
  rw [all_ws_of_stripChars_eq_nil hdata c hc] at hw
  exact absurd hw (by decide)

/-- Every character of every part occurs in the newline join of the parts. -/
theorem mem_data_joinNl :
    ∀ (parts : List String) (s : String), s ∈ parts → ∀ c ∈ s.data, c ∈ (joinNl parts).data := by
  intro parts
  induction parts with
  | nil => intro s hs; exact absurd hs (List.not_mem_nil s)
  | cons t rest ih =>
    intro s hs c hc
    cases rest with
    | nil =>
      rw [List.mem_singleton.mp hs] at hc
      exact hc
    | cons u rest' =>
      show c ∈ ((t ++ "\n") ++ joinNl (u :: rest')).data
      rw [show ((t ++ "\n") ++ joinNl (u :: rest')).data =
        (t ++ "\n").data ++ (joinNl (u :: rest')).data from rfl]
      rcases List.mem_cons.mp hs with rfl | hs
      · exact List.mem_append_left _ (List.mem_append_left _ hc)
      · exact List.mem_append_right _ (ih s hs c hc)

/-- C9: the context is the long-term block (header, then the capped most-recent
summaries, most recent first) followed by the short-term block (blank line,
header, then the last `max_stm` snippets in original order with newlines
flattened to " / "); each block is omitted when its list is empty; the
long-term entries are in descending timestamp order, capped, and drawn from
the input; the short-term entries are a suffix of the input (original
order) of length at most `max_stm` when the cap is positive; and the
result is the empty string exactly when both inputs are empty. -/
theorem build_memory_context_spec (stm ltm : List MemoryItem) (max_stm max_ltm : ℕ) :
    (memory_context_parts stm ltm max_stm max_ltm =
      (if ltm = [] then [] else
        "Important things the user has shared before:" ::
          ((sortDesc (fun m : MemoryItem => m.timestamp) ltm).take max_ltm).map
            (fun m => "- " ++ m.text)) ++
      (if stm = [] then [] else
        "" :: "Recent conversation snippets:" ::
          (pySliceLast max_stm stm).map (fun m => "- " ++ m.text.replace "\n" " / "))) ∧
    ((sortDesc (fun m : MemoryItem => m.timestamp) ltm).take max_ltm).Pairwise
      (fun a b => b.timestamp ≤ a.timestamp) ∧
    ((sortDesc (fun m : MemoryItem => m.timestamp) ltm).take max_ltm).length ≤ max_ltm ∧
    (∀ m ∈ (sortDesc (fun m : MemoryItem => m.timestamp) ltm).take max_ltm, m ∈ ltm) ∧
    (pySliceLast max_stm stm).IsSuffix stm ∧
    (0 < max_stm → (pySliceLast max_stm stm).length ≤ max_stm) ∧
    (build_memory_context stm ltm max_stm max_ltm = "" ↔ stm = [] ∧ ltm = []) := by
  have hparts : memory_context_parts stm ltm max_stm max_ltm =
      (if ltm = [] then [] else
        "Important things the user has shared before:" ::
          ((sortDesc (fun m : MemoryItem => m.timestamp) ltm).take max_ltm).map
            (fun m => "- " ++ m.text)) ++
      (if stm = [] then [] else
        "" :: "Recent conversation snippets:" ::
          (pySliceLast max_stm stm).map (fun m => "- " ++ m.text.replace "\n" " / ")) := by
    by_cases h1 : ltm = [] <;> by_cases h2 : stm = [] <;>
      simp [memory_context_parts, h1, h2]
  refine ⟨hparts, ?_, ?_, ?_, ?_, ?_, ?_⟩
  · exact List.Pairwise.sublist (List.take_sublist _ _) (pairwise_sortDesc _ ltm)
  · exact List.length_take_le _ _
  · intro m hm
    exact mem_sortDesc.mp (List.mem_of_mem_take hm)
  · rw [pySliceLast]
    split_ifs
    · exact List.suffix_refl _
    · exact List.drop_suffix _ _
  · intro h
    rw [pySliceLast, if_neg (Nat.pos_iff_ne_zero.mp h), List.length_drop]
    omega
  · constructor
    · intro h
      by_cases h1 : ltm = []
      · by_cases h2 : stm = []
        · exact ⟨h2, h1⟩
        · exfalso
          have hmem : ("Recent conversation snippets:" : String) ∈
              memory_context_parts stm ltm max_stm max_ltm := by
            rw [hparts, if_pos h1, if_neg h2]
            exact List.mem_cons_of_mem _ (List.mem_cons_self _ _)
          exact pyStrip_ne_empty
            (mem_data_joinNl _ _ hmem 'R' (by decide)) (by decide) h
      · exfalso
        have hmem : ("Important things the user has shared before:" : String) ∈
            memory_context_parts stm ltm max_stm max_ltm := by
          rw [hparts, if_neg h1]
          exact List.mem_append_left _ (List.mem_cons_self _ _)
        exact pyStrip_ne_empty
          (mem_data_joinNl _ _ hmem 'I' (by decide)) (by decide) h
    · rintro ⟨h2, h1⟩
      subst h1
      subst h2
      show pyStrip (joinNl (memory_context_parts [] [] max_stm max_ltm)) = ""
      simp only [memory_context_parts, if_pos rfl]
      rfl

/-- Witness for C9 at the empty inputs: the context is the empty string. -/
theorem build_memory_context_spec_witness :
    build_memory_context [] [] 4 6 = "" :=
  (build_memory_context_spec [] [] 4 6).2.2.2.2.2.2.mpr ⟨rfl, rfl⟩

/-! Claim C5: range of observable PAD values. -/

/-- The [-1,1] clip really lands in [-1,1]. -/
theorem clipPm_mem (x : ℚ) : -1 ≤ clipPm x ∧ clipPm x ≤ 1 :=
  ⟨le_max_left _ _, max_le (by norm_num) (min_le_left _ _)⟩

/-- A clipped PAD is componentwise in range. -/
theorem clipped_inRange (p : PAD) : p.clipped.inRange :=
  ⟨(clipPm_mem _).1, (clipPm_mem _).2, (clipPm_mem _).1, (clipPm_mem _).2,
    (clipPm_mem _).1, (clipPm_mem _).2⟩

/-- A product of two values in [-1,1] stays in [-1,1]. -/
theorem mul_mem_pm {a b : ℚ} (ha1 : -1 ≤ a) (ha2 : a ≤ 1) (hb1 : -1 ≤ b) (hb2 : b ≤ 1) :
    -1 ≤ a * b ∧ a * b ≤ 1 := by
  have h : |a * b| ≤ 1 := by
    rw [abs_mul]
    calc |a| * |b| ≤ 1 * 1 :=
          mul_le_mul (abs_le.mpr ⟨ha1, ha2⟩) (abs_le.mpr ⟨hb1, hb2⟩) (abs_nonneg b)
            (by norm_num)
      _ = 1 := by norm_num
  exact abs_le.mp h

/-- C5 (counterexample): the claim as stated is false — `Mood.reset` passes a
supplied baseline through unclipped, so `current` can return a PAD with
pleasure 2, and `PAD.scale` with factor 2 returns pleasure 2; both are
observable out-of-range values. -/
theorem pad_range_counterexample :
    ((Mood.init 0.85 none).reset (some (PAD.mk 2 0 0))).current.pleasure = 2 ∧
    ¬ ((Mood.init 0.85 none).reset (some (PAD.mk 2 0 0))).current.pleasure ≤ 1 ∧
    ((PAD.mk 1 0 0).scale 2).pleasure = 2 ∧
    ¬ ((PAD.mk 1 0 0).scale 2).pleasure ≤ 1 := by
  refine ⟨rfl, ?_, ?_, ?_⟩
  · show ¬ (2 : ℚ) ≤ 1
    norm_num
  · show (1 : ℚ) * 2 = 2
    norm_num
  · show ¬ (1 : ℚ) * 2 ≤ 1
    norm_num

/-- C5 (amended): every PAD produced by `Mood.update` (returned value and
stored state) and by `NeuroChemistry.to_pad` is componentwise in [-1,1];
`Mood` construction and `Mood.reset` return the supplied baseline
unclipped, so their `current` is in range whenever the supplied baseline
is (and always for the default zero baseline); and `PAD.scale` stays in
range provided the input is in range and the factor lies in [-1,1]. -/
theorem pad_range_amended :
    (∀ (m : Mood) (d : PAD) (b : ℚ),
      ((m.update d b).2).inRange ∧ ((m.update d b).1.state).inRange) ∧
    (∀ nc : NeuroChemistry, nc.to_pad.inRange) ∧
    (∀ decay : ℚ, ((Mood.init decay none).current).inRange) ∧
    (∀ (decay : ℚ) (p : PAD), p.inRange → ((Mood.init decay (some p)).current).inRange) ∧
    (∀ (m : Mood) (p : PAD), p.inRange → ((m.reset (some p)).current).inRange) ∧
    (∀ m : Mood, ((m.reset none).current).inRange) ∧
    (∀ (p : PAD) (f : ℚ), p.inRange → -1 ≤ f → f ≤ 1 → (p.scale f).inRange) := by
  refine ⟨?_, ?_, ?_, ?_, ?_, ?_, ?_⟩
  · intro m d b
    exact ⟨clipped_inRange _, clipped_inRange _⟩
  · intro nc
    exact clipped_inRange _
  · intro decay
    show PAD.inRange PAD.zero
    refine ⟨?_, ?_, ?_, ?_, ?_, ?_⟩ <;> norm_num [PAD.zero]
  · intro decay p hp
    exact hp
  · intro m p hp
    exact hp
  · intro m
    show PAD.inRange PAD.zero
    refine ⟨?_, ?_, ?_, ?_, ?_, ?_⟩ <;> norm_num [PAD.zero]
  · intro p f hp hf1 hf2
    obtain ⟨a1, a2, b1, b2, c1, c2⟩ := hp
    exact ⟨(mul_mem_pm a1 a2 hf1 hf2).1, (mul_mem_pm a1 a2 hf1 hf2).2,
      (mul_mem_pm b1 b2 hf1 hf2).1, (mul_mem_pm b1 b2 hf1 hf2).2,
      (mul_mem_pm c1 c2 hf1 hf2).1, (mul_mem_pm c1 c2 hf1 hf2).2⟩

/-- Witness for the amended C5 at concrete inputs. -/
theorem pad_range_amended_witness :
    ((PAD.mk 1 0 0).scale 0.5).inRange ∧
    ((Mood.init 0.85 (some (PAD.mk 1 0 0))).current).inRange :=
  ⟨pad_range_amended.2.2.2.2.2.2 (PAD.mk 1 0 0) 0.5
      (by refine ⟨?_, ?_, ?_, ?_, ?_, ?_⟩ <;> norm_num) (by norm_num) (by norm_num),
    pad_range_amended.2.2.2.1 0.85 (PAD.mk 1 0 0)
      (by refine ⟨?_, ?_, ?_, ?_, ?_, ?_⟩ <;> norm_num)⟩

/-! Claim C7: the crisis turn. -/

/-- C7 (amended): when the crisis check fires, the reply is the fixed crisis
message and the generation backend is never invoked (the turn's outcome is
the same for any two backends); the mood and neuro-state updates still run
on the classifier's PAD delta, and the memory update still runs with the
forced "safety" label and the crisis message as the logged reply; the
attachment update, however, runs before the crisis override and uses the
classifier's label, not the forced "safety" label. -/
theorem crisis_turn_spec (st : TurnState) (user_text label : String) (delta : PAD)
    (signals : Signals) (nb : NeuroChemistry) (w : ℚ) (pb : PAD) (pw : ℚ)
    (gen gen' : String → PAD → String) (now : ℕ) (msg : String)
    (h : check user_text = some msg) :
    (run_turn st user_text label delta signals nb w pb pw gen now).2 = msg ∧
    run_turn st user_text label delta signals nb w pb pw gen now =
      run_turn st user_text label delta signals nb w pb pw gen' now ∧
    (run_turn st user_text label delta signals nb w pb pw gen now).1.mood =
      (st.mood.update delta 0.25).1 ∧
    (run_turn st user_text label delta signals nb w pb pw gen now).1.brain =
      brain_step st.brain nb delta ∧
    (run_turn st user_text label delta signals nb w pb pw gen now).1.brain_history =
      st.brain_history ++ [brain_step st.brain nb delta] ∧
    (run_turn st user_text label delta signals nb w pb pw gen now).1.stm =
      (update_memories st.stm st.ltm user_text msg "safety"
        (st.mood.update delta 0.25).2 (brain_step st.brain nb delta) now 20 12 0.6).1 ∧
    (run_turn st user_text label delta signals nb w pb pw gen now).1.ltm =
      (update_memories st.stm st.ltm user_text msg "safety"
        (st.mood.update delta 0.25).2 (brain_step st.brain nb delta) now 20 12 0.6).2 ∧
    (run_turn st user_text label delta signals nb w pb pw gen now).1.attachment =
      update_attachment st.attachment label signals.target signals := by
  unfold run_turn
  rw [h]
  exact ⟨rfl, rfl, rfl, rfl, rfl, rfl, rfl, rfl⟩

/-- Witness for the amended C7 at a concrete crisis turn. -/
theorem crisis_turn_spec_witness :
    (run_turn ⟨Mood.init 0.85 none, ⟨0, 0, 0⟩, [⟨0, 0, 0⟩], [], [], 0.3⟩ "suicide" "sadness"
      PAD.zero ⟨0, "self"⟩ ⟨0, 0, 0⟩ 0.4 PAD.zero 0.5 (fun _ _ => "") 0).2 = crisisMessage :=
  (crisis_turn_spec ⟨Mood.init 0.85 none, ⟨0, 0, 0⟩, [⟨0, 0, 0⟩], [], [], 0.3⟩ "suicide"
    "sadness" PAD.zero ⟨0, "self"⟩ ⟨0, 0, 0⟩ 0.4 PAD.zero 0.5 (fun _ _ => "")
    (fun _ _ => "") 0 crisisMessage (by decide)).1

/-- C7 (counterexample): on a crisis turn whose classifier output is label
"sadness" with target "self", the pipeline's attachment update adds +0.02
(the rule for the classifier's label), while the forced "safety" label
would add +0.01 — so the attachment update does not run with the forced
"safety" label, contradicting the claim as stated. -/
theorem crisis_turn_counterexample :
    (run_turn ⟨Mood.init 0.85 none, ⟨0, 0, 0⟩, [⟨0, 0, 0⟩], [], [], 0.3⟩
      "i want to kill myself" "sadness" (PAD.mk (-0.7) (-0.4) (-0.4)) ⟨-0.6, "self"⟩
      ⟨0, 0, 0⟩ 0.4 PAD.zero 0.5 (fun _ _ => "") 0).1.attachment = 0.32 ∧
    update_attachment 0.3 "safety" "self" ⟨-0.6, "self"⟩ = 0.31 ∧
    ((0.32 : ℚ) ≠ 0.31) ∧
    check "i want to kill myself" = some crisisMessage := by
  refine ⟨?_, ?_, by norm_num, by decide⟩
  · show update_attachment 0.3 "sadness" "self" ⟨-0.6, "self"⟩ = 0.32
    norm_num [update_attachment, clip01, min_def, max_def,
      show ("sadness" : String) ≠ "gratitude" from by decide,
      show ("sadness" : String) ≠ "joy" from by decide,
      show ("sadness" : String) ≠ "anger" from by decide,
      show ("sadness" : String) ≠ "safety" from by decide,
      show ("self" : String) ≠ "bot" from by decide]
  · norm_num [update_attachment, clip01, min_def, max_def,
      show ("safety" : String) ≠ "gratitude" from by decide,
      show ("safety" : String) ≠ "joy" from by decide,
      show ("safety" : String) ≠ "sadness" from by decide,
      show ("safety" : String) ≠ "fear" from by decide,
      show ("safety" : String) ≠ "anger" from by decide,
      show ("self" : String) ≠ "bot" from by decide]
